import Mathlib

/-!
Shallow embedding of the server-side view rendering bridge
(file framework/view/viewrt/viewrt.go of the bud repository).

Conventions of the embedding:
* Go strings are Lean String values (lists of unicode scalar chars).
* Fallible Go calls return Except String / Option.
* The script engine (js.VM) is a function value: unit name and source
  expression in, textual result or error out.
* Filesystems are function values from path to result.
* The HTTP side (middleware and handlers) is embedded as functions that
  produce a trace of effects (header writes, status write, body write,
  content serving, file close, log lines); logging via log.Interface is
  modelled by logError effects, so the logger value itself carries no state
  and is dropped from the embedded structures.
* encoding/json and strconv are Go standard library collaborators; they are
  embedded below at the level of detail the viewrt code observes: a JSON
  value grammar with integer numbers, the standard escape sequences
  (html-escaping of angle brackets is not modelled), and Go-style
  struct/map unmarshalling with unknown keys ignored and null skipped.
-/

/-- Decimal digit character for a value 0..9 (values above 9 clamp to '9'). -/
def digitChar (n : Nat) : Char :=
  match n with
  | 0 => '0' | 1 => '1' | 2 => '2' | 3 => '3' | 4 => '4'
  | 5 => '5' | 6 => '6' | 7 => '7' | 8 => '8' | _ => '9'

/-- Hexadecimal digit character for a value 0..15 (lower case, as Go emits). -/
def hexDigitChar (n : Nat) : Char :=
  match n with
  | 0 => '0' | 1 => '1' | 2 => '2' | 3 => '3' | 4 => '4' | 5 => '5' | 6 => '6' | 7 => '7'
  | 8 => '8' | 9 => '9' | 10 => 'a' | 11 => 'b' | 12 => 'c' | 13 => 'd' | 14 => 'e' | _ => 'f'

/-- Decimal digits of a natural number, most significant first, computed
with explicit fuel so the definition is structurally recursive; empty for 0.
The fuel bounds the number of digits, so any fuel at least the value itself
is plenty. -/
def natDigitsAux : Nat → Nat → List Char
  | 0, _ => []
  | _, 0 => []
  | f + 1, n + 1 => natDigitsAux f ((n + 1) / 10) ++ [digitChar ((n + 1) % 10)]

/-- Decimal digits of a natural number, most significant first; empty for 0. -/
def natDigits (n : Nat) : List Char :=
  natDigitsAux n n

/-- Decimal representation of a natural number, as Go fmt prints it. -/
def natRepr (n : Nat) : String :=
  if n = 0 then "0" else String.mk (natDigits n)

/-- Decimal representation of an integer, as Go fmt %d prints it. -/
def intRepr (i : Int) : String :=
  if i < 0 then "-" ++ natRepr i.natAbs else natRepr i.natAbs

/-- JSON string escaping of one character, as Go encoding/json emits it
(quotation mark, backslash, newline/return/tab by name, other control
characters as a unicode escape; html escaping is not modelled). -/
def escapeChar (c : Char) : List Char :=
  if c = '"' then ['\\', '"']
  else if c = '\\' then ['\\', '\\']
  else if c = '\n' then ['\\', 'n']
  else if c = '\r' then ['\\', 'r']
  else if c = '\t' then ['\\', 't']
  else if c.toNat < 32 then ['\\', 'u', '0', '0', hexDigitChar (c.toNat / 16), hexDigitChar (c.toNat % 16)]
  else [c]

/-- JSON string escaping of a character list. -/
def escapeList (l : List Char) : List Char :=
  (l.map escapeChar).flatten

/-- JSON serialization of a string, quotes included. -/
def serializeString (s : String) : String :=
  String.mk ('"' :: escapeList s.data ++ ['"'])

/-- Go strconv quoting of one character, as used by fmt %q: quotation mark
and backslash are backslash-escaped, printable ascii is kept, the named
control escapes are emitted by name, remaining ascii control characters as
a hex escape; characters at 128 and above are kept as written (Go would
escape the non-printable ones among them, which the embedding does not
model). -/
def goQuoteChar (c : Char) : List Char :=
  if c = '"' then ['\\', '"']
  else if c = '\\' then ['\\', '\\']
  else if 32 ≤ c.toNat ∧ c.toNat ≤ 126 then [c]
  else if c.toNat = 7 then ['\\', 'a']
  else if c.toNat = 8 then ['\\', 'b']
  else if c.toNat = 12 then ['\\', 'f']
  else if c = '\n' then ['\\', 'n']
  else if c = '\r' then ['\\', 'r']
  else if c = '\t' then ['\\', 't']
  else if c.toNat = 11 then ['\\', 'v']
  else if c.toNat < 32 ∨ c.toNat = 127 then ['\\', 'x', hexDigitChar (c.toNat / 16), hexDigitChar (c.toNat % 16)]
  else [c]

/-- Inner characters of the Go-quoted form of a string (without the two
enclosing quotation marks). -/
def goQuoteBody (s : String) : List Char :=
  (s.data.map goQuoteChar).flatten

/-- Go strconv.Quote of a string, as fmt %q emits it. -/
def goQuote (s : String) : String :=
  String.mk ('"' :: goQuoteBody s ++ ['"'])

/-- Scanner deciding that a character list is safe as the body of a
double-quoted string literal: no unescaped quotation mark and no dangling
final backslash, so appending a closing quote yields one complete literal. -/
def wellEscaped : List Char → Bool
  | [] => true
  | c :: rest =>
    if c = '\\' then
      match rest with
      | [] => false
      | _ :: rest2 => wellEscaped rest2
    else if c = '"' then false
    else wellEscaped rest

/-- Go values as the viewrt code can receive them for props: JSON-like data
plus an unsupported case (function, channel, cyclic value, ...) on which
encoding/json Marshal fails with the given message. -/
inductive GoValue where
  | null : GoValue
  | boolean (b : Bool) : GoValue
  | num (n : Int) : GoValue
  | str (s : String) : GoValue
  | arr (elems : List GoValue) : GoValue
  | obj (fields : List (String × GoValue)) : GoValue
  | unsupported (msg : String) : GoValue
deriving Repr

mutual

/-- Go encoding/json Marshal of a props value (object fields emitted in
field order; the unsupported case yields the marshal error). -/
def jsonMarshal : GoValue → Except String String
  | GoValue.null => Except.ok "null"
  | GoValue.boolean true => Except.ok "true"
  | GoValue.boolean false => Except.ok "false"
  | GoValue.num n => Except.ok (intRepr n)
  | GoValue.str s => Except.ok (serializeString s)
  | GoValue.arr es =>
    match jsonMarshalArr es with
    | Except.error e => Except.error e
    | Except.ok parts => Except.ok ("[" ++ String.intercalate "," parts ++ "]")
  | GoValue.obj fs =>
    match jsonMarshalObj fs with
    | Except.error e => Except.error e
    | Except.ok parts => Except.ok ("\x7b" ++ String.intercalate "," parts ++ "\x7d")
  | GoValue.unsupported msg => Except.error msg

/-- Marshal of the elements of a JSON array. -/
def jsonMarshalArr : List GoValue → Except String (List String)
  | [] => Except.ok []
  | v :: vs =>
    match jsonMarshal v with
    | Except.error e => Except.error e
    | Except.ok s =>
      match jsonMarshalArr vs with
      | Except.error e => Except.error e
      | Except.ok rest => Except.ok (s :: rest)

/-- Marshal of the fields of a JSON object. -/
def jsonMarshalObj : List (String × GoValue) → Except String (List String)
  | [] => Except.ok []
  | (k, v) :: fs =>
    match jsonMarshal v with
    | Except.error e => Except.error e
    | Except.ok s =>
      match jsonMarshalObj fs with
      | Except.error e => Except.error e
      | Except.ok rest => Except.ok ((serializeString k ++ ":" ++ s) :: rest)

end

example : jsonMarshal (GoValue.obj [("name", GoValue.str "world")]) = Except.ok "\x7b\"name\":\"world\"\x7d" := rfl

example : goQuote "/a\"b\\c" = "\"/a\\\"b\\\\c\"" := by decide

example : wellEscaped (goQuoteBody "x\"y\\") = true := by decide

/-- JSON values, with numbers restricted to integers (the only numeric shape
the viewrt response protocol can accept into its int status field). -/
inductive JValue where
  | null : JValue
  | boolean (b : Bool) : JValue
  | num (n : Int) : JValue
  | str (s : String) : JValue
  | arr (elems : List JValue) : JValue
  | obj (members : List (String × JValue)) : JValue
deriving Repr

/-- JSON whitespace. -/
def wsChar (c : Char) : Bool :=
  c = ' ' || c = '\t' || c = '\n' || c = '\r'

/-- Drop leading JSON whitespace. -/
def skipWs (cs : List Char) : List Char :=
  cs.dropWhile wsChar

/-- Hexadecimal digit test. -/
def isHexDigit (c : Char) : Bool :=
  ('0' ≤ c && c ≤ '9') || ('a' ≤ c && c ≤ 'f') || ('A' ≤ c && c ≤ 'F')

/-- Value of a hexadecimal digit character. -/
def hexVal (c : Char) : Nat :=
  if '0' ≤ c && c ≤ '9' then c.toNat - 48
  else if 'a' ≤ c && c ≤ 'f' then c.toNat - 87
  else c.toNat - 55

/-- Character encoded by a four-digit unicode escape, when the digits are
hexadecimal. -/
def hexQuadChar (h1 h2 h3 h4 : Char) : Option Char :=
  if isHexDigit h1 && isHexDigit h2 && isHexDigit h3 && isHexDigit h4 then
    some (Char.ofNat (hexVal h1 * 4096 + hexVal h2 * 256 + hexVal h3 * 16 + hexVal h4))
  else none

/-- Single-character JSON string escapes. -/
def escTable (e : Char) : Option Char :=
  if e = '"' then some '"'
  else if e = '\\' then some '\\'
  else if e = '/' then some '/'
  else if e = 'b' then some (Char.ofNat 8)
  else if e = 'f' then some (Char.ofNat 12)
  else if e = 'n' then some '\n'
  else if e = 'r' then some '\r'
  else if e = 't' then some '\t'
  else none

/-- Parse the body of a JSON string after the opening quote; returns the
decoded characters and the input following the closing quote. -/
def parseStringBody : List Char → Option (List Char × List Char)
  | [] => none
  | c :: rest =>
    if c = '"' then some ([], rest)
    else if c = '\\' then
      match rest with
      | [] => none
      | e :: rest2 =>
        if e = 'u' then
          match rest2 with
          | h1 :: h2 :: h3 :: h4 :: rest3 =>
            match hexQuadChar h1 h2 h3 h4 with
            | none => none
            | some ch =>
              match parseStringBody rest3 with
              | none => none
              | some (s, r) => some (ch :: s, r)
          | _ => none
        else
          match escTable e with
          | none => none
          | some ch =>
            match parseStringBody rest2 with
            | none => none
            | some (s, r) => some (ch :: s, r)
    else if c.toNat < 32 then none
    else
      match parseStringBody rest with
      | none => none
      | some (s, r) => some (c :: s, r)

/-- Accumulate decimal digits from the front of the input. -/
def parseDigitsAcc (acc : Nat) : List Char → Nat × List Char
  | [] => (acc, [])
  | c :: rest =>
    if c.isDigit then parseDigitsAcc (acc * 10 + (c.toNat - 48)) rest
    else (acc, c :: rest)

/-- Parse an unsigned JSON integer: digits without a redundant leading zero
and without a fraction or exponent (a fractional or exponential number
cannot decode into the int status field, so it is rejected here). -/
def parseUInt : List Char → Option (Nat × List Char)
  | [] => none
  | c :: rest =>
    if c.isDigit then
      if c = '0' && (match rest with | d :: _ => d.isDigit | [] => false) then none
      else
        match parseDigitsAcc (c.toNat - 48) rest with
        | (n, r) =>
          match r with
          | e :: _ => if e = '.' || e = 'e' || e = 'E' then none else some (n, r)
          | [] => some (n, [])
    else none

/-- Parse a JSON integer with optional minus sign. -/
def parseIntNum : List Char → Option (Int × List Char)
  | [] => none
  | c :: rest =>
    if c = '-' then
      match parseUInt rest with
      | none => none
      | some (n, r) => some (-(n : Int), r)
    else
      match parseUInt (c :: rest) with
      | none => none
      | some (n, r) => some ((n : Int), r)

mutual

/-- Fueled recursive-descent JSON value parser; every recursive call spends
one unit of fuel, and the top-level entry point supplies more fuel than any
input of its length can spend. -/
def parseValue : Nat → List Char → Option (JValue × List Char)
  | 0, _ => none
  | fuel + 1, cs =>
    match skipWs cs with
    | [] => none
    | c :: rest =>
      if c = '"' then
        match parseStringBody rest with
        | none => none
        | some (s, r) => some (JValue.str (String.mk s), r)
      else if c = '\x7b' then
        match parseMembersStart fuel rest with
        | none => none
        | some (ms, r) => some (JValue.obj ms, r)
      else if c = '[' then
        match parseElemsStart fuel rest with
        | none => none
        | some (es, r) => some (JValue.arr es, r)
      else if c = 't' then
        match rest with
        | 'r' :: 'u' :: 'e' :: r => some (JValue.boolean true, r)
        | _ => none
      else if c = 'f' then
        match rest with
        | 'a' :: 'l' :: 's' :: 'e' :: r => some (JValue.boolean false, r)
        | _ => none
      else if c = 'n' then
        match rest with
        | 'u' :: 'l' :: 'l' :: r => some (JValue.null, r)
        | _ => none
      else
        match parseIntNum (c :: rest) with
        | none => none
        | some (n, r) => some (JValue.num n, r)

/-- Parse the members of a JSON object after the opening brace, allowing the
empty object. -/
def parseMembersStart : Nat → List Char → Option (List (String × JValue) × List Char)
  | 0, _ => none
  | fuel + 1, cs =>
    match skipWs cs with
    | '\x7d' :: rest => some ([], rest)
    | cs2 => parseMembers fuel cs2

/-- Parse one or more comma-separated members of a JSON object up to the
closing brace. -/
def parseMembers : Nat → List Char → Option (List (String × JValue) × List Char)
  | 0, _ => none
  | fuel + 1, cs =>
    match skipWs cs with
    | '"' :: rest =>
      match parseStringBody rest with
      | none => none
      | some (k, r1) =>
        match skipWs r1 with
        | ':' :: r2 =>
          match parseValue fuel r2 with
          | none => none
          | some (v, r3) =>
            match skipWs r3 with
            | ',' :: r4 =>
              match parseMembers fuel r4 with
              | none => none
              | some (ms, r5) => some ((String.mk k, v) :: ms, r5)
            | '\x7d' :: r4 => some ([(String.mk k, v)], r4)
            | _ => none
        | _ => none
    | _ => none

/-- Parse the elements of a JSON array after the opening bracket, allowing
the empty array. -/
def parseElemsStart : Nat → List Char → Option (List JValue × List Char)
  | 0, _ => none
  | fuel + 1, cs =>
    match skipWs cs with
    | ']' :: rest => some ([], rest)
    | cs2 => parseElems fuel cs2

/-- Parse one or more comma-separated elements of a JSON array up to the
closing bracket. -/
def parseElems : Nat → List Char → Option (List JValue × List Char)
  | 0, _ => none
  | fuel + 1, cs =>
    match parseValue fuel cs with
    | none => none
    | some (v, r1) =>
      match skipWs r1 with
      | ',' :: r2 =>
        match parseElems fuel r2 with
        | none => none
        | some (es, r3) => some (v :: es, r3)
      | ']' :: r2 => some ([v], r2)
      | _ => none

end

/-- Parse a whole string as one JSON value, requiring only whitespace after
it, as Go json.Unmarshal does. -/
def parseJson (s : String) : Option JValue :=
  match parseValue (2 * s.data.length + 4) s.data with
  | none => none
  | some (v, r) => if skipWs r = [] then some v else none

/-- Modelled from the spec: the ssr.Response struct of the
framework/view/ssr package (not under src); per spec section 3 a render
response carries an integer status, a string-to-string header mapping and a
string body, with JSON keys "status", "headers" and "body". Go's
map[string]string is modelled as an association list with unique keys. -/
structure Response where
  status : Int
  headers : List (String × String)
  body : String
deriving Repr, DecidableEq

/-- Map update with last-write-wins semantics on an association list, the
behaviour of writing one key of a Go map. -/
def setAssoc : List (String × String) → String → String → List (String × String)
  | [], k, v => [(k, v)]
  | (k0, v0) :: rest, k, v =>
    if k0 = k then (k0, v) :: rest else (k0, v0) :: setAssoc rest k v

/-- Modelled from the spec: Go json.Unmarshal of a JSON object into a
map[string]string, member by member in input order with later duplicate
keys overwriting; any non-string member value is a decode error. -/
def decodeHeaders (acc : List (String × String)) : List (String × JValue) → Option (List (String × String))
  | [] => some acc
  | (k, JValue.str s) :: rest => decodeHeaders (setAssoc acc k s) rest
  | _ => none

/-- Modelled from the spec: Go json.Unmarshal of object members into the
ssr.Response struct: the keys "status", "headers" and "body" set their
fields (a JSON null leaves the field untouched, a wrong-typed value is a
decode error), unknown keys are ignored, later duplicates win. -/
def decodeResponseFields (res : Response) : List (String × JValue) → Option Response
  | [] => some res
  | (k, v) :: rest =>
    if k = "status" then
      match v with
      | JValue.num n => decodeResponseFields { res with status := n } rest
      | JValue.null => decodeResponseFields res rest
      | _ => none
    else if k = "headers" then
      match v with
      | JValue.obj ms =>
        match decodeHeaders [] ms with
        | none => none
        | some hs => decodeResponseFields { res with headers := hs } rest
      | JValue.null => decodeResponseFields res rest
      | _ => none
    else if k = "body" then
      match v with
      | JValue.str s => decodeResponseFields { res with body := s } rest
      | JValue.null => decodeResponseFields res rest
      | _ => none
    else decodeResponseFields res rest

/-- Go json.Unmarshal of the engine result into a fresh zero-valued
ssr.Response: the input must be a full JSON document; a top-level object
decodes field-wise, a top-level null leaves the zero value, anything else
is a type error. -/
def unmarshalResponse (s : String) : Option Response :=
  match parseJson s with
  | none => none
  | some JValue.null => some ⟨0, [], ""⟩
  | some (JValue.obj ms) => decodeResponseFields ⟨0, [], ""⟩ ms
  | some _ => none

/-- The renderer struct of viewrt.go: an asset source for the bundle
(fs.ReadFile view of its fs.FS field) and a script engine (js.VM). -/
structure renderer where
  fsys : String → Except String String
  vm : String → String → Except String String

/-- The evaluation expression Render builds:
fmt.Sprintf of the bundle source, "; bud.render(", the %q-quoted route,
", ", the raw marshalled props and ")". -/
def renderExpr (script route propBytes : String) : String :=
  script ++ "; bud.render(" ++ goQuote route ++ ", " ++ propBytes ++ ")"

/-- Continuation of Render after the engine call: unmarshal the result and
validate the status range (Go's json error text is abstracted to a fixed
message). -/
def renderFinish (result : Except String String) : Except String Response :=
  match result with
  | Except.error e => Except.error e
  | Except.ok result =>
    match unmarshalResponse result with
    | none => Except.error "json unmarshal error"
    | some res =>
      if res.status < 100 ∨ res.status > 999 then
        Except.error ("view: invalid status code " ++ intRepr res.status)
      else Except.ok res

/-- The Render method of the renderer (viewrt.go lines 176-200): marshal the
props, read the bundle at bud/view/_ssr.js, evaluate the expression under
the unit name _ssr.js, unmarshal the result and validate its status. -/
def renderer.Render (r : renderer) (route : String) (props : GoValue) : Except String Response :=
  match jsonMarshal props with
  | Except.error e => Except.error e
  | Except.ok propBytes =>
    match r.fsys "bud/view/_ssr.js" with
    | Except.error e => Except.error e
    | Except.ok script =>
      match r.vm "_ssr.js" (renderExpr script route propBytes) with
      | Except.error e => Except.error e
      | Except.ok result =>
        match unmarshalResponse result with
        | none => Except.error "json unmarshal error"
        | some res =>
          if res.status < 100 ∨ res.status > 999 then
            Except.error ("view: invalid status code " ++ intRepr res.status)
          else Except.ok res

example :
    renderer.Render
      ⟨fun _ => Except.ok "var bud = 0", fun _ _ => Except.ok "\x7b\"status\":204,\"headers\":\x7b\x7d,\"body\":\"ok\"\x7d"⟩
      "/" GoValue.null
      = Except.ok ⟨204, [], "ok"⟩ := rfl

example :
    renderer.Render
      ⟨fun _ => Except.ok "var bud = 0", fun _ _ => Except.ok "\x7b\"status\":99\x7d"⟩
      "/" GoValue.null
      = Except.error "view: invalid status code 99" := rfl

/-- Observable effects of one handler invocation on the http response
writer, the asset handle and the logger, in order of occurrence. -/
inductive Effect where
  | setHeader (key value : String) : Effect
  | addHeader (key value : String) : Effect
  | writeHeader (status : Int) : Effect
  | write (body : String) : Effect
  | serveContent (name : String) (modtime : Nat) : Effect
  | close : Effect
  | logError (msg : String) : Effect
deriving Repr, DecidableEq

/-- Effects of Go's http.Error: set the plain-text content type headers,
write the status, then print the message followed by a newline. -/
def httpError (msg : String) (code : Int) : List Effect :=
  [Effect.setHeader "Content-Type" "text/plain; charset=utf-8",
   Effect.setHeader "X-Content-Type-Options" "nosniff",
   Effect.writeHeader code,
   Effect.write (msg ++ "\n")]

/-- An inbound http request: the url path the middleware inspects plus an
opaque remainder (method here) showing that forwarding passes the whole
request through unchanged. -/
structure Request where
  urlPath : String
  method : String
deriving Repr, DecidableEq

/-- Result of opening a path on an http.FileSystem: Go reports not-found
via errors.Is(err, fs.ErrNotExist), modelled by the notExist flag. -/
structure OpenError where
  notExist : Bool
  msg : String
deriving Repr, DecidableEq

/-- An open asset handle: its Stat call either fails or yields the
modification time (the only FileInfo datum viewrt uses). -/
structure FileHandle where
  statModTime : Except String Nat

/-- An http.FileSystem as viewrt consumes it. -/
def HttpFS : Type := String → Except OpenError FileHandle

/-- Prefix test on character lists. -/
def listIsPfx : List Char → List Char → Bool
  | [], _ => true
  | _ :: _, [] => false
  | p :: ps, c :: cs => p = c && listIsPfx ps cs

/-- Go strings.HasPrefix, computed on the character lists. -/
def strHasPfx (s pat : String) : Bool :=
  listIsPfx pat.data s.data

/-- Go strings.HasSuffix, computed on the character lists. -/
def strHasSfx (s pat : String) : Bool :=
  listIsPfx pat.data.reverse s.data.reverse

/-- Go strings.TrimPrefix of one leading slash. -/
def trimLeadingSlash (s : String) : String :=
  match s.data with
  | '/' :: rest => String.mk rest
  | _ => s

/-- The isClient classifier of viewrt.go (lines 129-132), shared verbatim by
both server variants. -/
def isClient (path : String) : Bool :=
  strHasPfx path "/bud/node_modules/" || strHasPfx path "/bud/view/"

/-- The liveServer struct (development mode): an http.FileSystem over the
remote client plus a renderer; the logger is modelled by logError effects. -/
structure liveServer where
  hfs : HttpFS
  rend : renderer

/-- The liveServer Middleware (viewrt.go lines 34-64): forward non-client
paths, otherwise open the asset (path without its leading slash), answer
404 on not-found, 500 on other open errors and on stat errors, else serve
the content with the asset's modification time, forcing the
application/javascript content type for node-module and svelte paths; the
deferred Close runs on every path after a successful open. -/
def liveServer.Middleware (s : liveServer) (next : Request → List Effect) (r : Request) : List Effect :=
  if ¬ isClient r.urlPath then next r
  else
    match s.hfs (trimLeadingSlash r.urlPath) with
    | Except.error e =>
      if e.notExist then httpError e.msg 404
      else Effect.logError ("view: open error: " ++ e.msg) :: httpError e.msg 500
    | Except.ok file =>
      match file.statModTime with
      | Except.error m =>
        (Effect.logError ("view: stat error: " ++ m) :: httpError m 500) ++ [Effect.close]
      | Except.ok mt =>
        (if strHasPfx r.urlPath "/bud/node_modules/" || strHasSfx r.urlPath ".svelte" then
          [Effect.setHeader "Content-Type" "application/javascript"]
        else []) ++ [Effect.serveContent r.urlPath mt, Effect.close]

/-- The liveServer respond helper (viewrt.go lines 73-86): render, and on
error log it and answer 500 with the raw error text; on success set every
response header, write the status, then write the body. -/
def liveServer.respond (s : liveServer) (path : String) (props : GoValue) : List Effect :=
  match s.rend.Render path props with
  | Except.error e => Effect.logError ("view: render error: " ++ e) :: httpError e 500
  | Except.ok res =>
    (res.headers.map fun kv => Effect.setHeader kv.1 kv.2)
      ++ [Effect.writeHeader res.status, Effect.write res.body]

/-- The liveServer Handler (viewrt.go lines 66-70): a terminal handler bound
to one route and props value. -/
def liveServer.Handler (s : liveServer) (route : String) (props : GoValue) : Request → List Effect :=
  fun _ => s.respond route props

/-- An fs.FS as the Static constructor consumes it: open for the http
middleware (via the http.FS adapter) and ReadFile for the renderer bundle
fetch, two views of one packaged filesystem. -/
structure FS where
  openFile : String → Except OpenError FileHandle
  readFile : String → Except String String

/-- Go's http.FS adapter: it serves Open calls by stripping one leading
slash from the request name (the root becomes the dot path). -/
def httpFS (fsys : FS) : HttpFS :=
  fun name => fsys.openFile (if name = "/" then "." else trimLeadingSlash name)

/-- The staticServer struct (production mode). -/
structure staticServer where
  hfs : HttpFS
  rend : renderer

/-- The Static constructor (viewrt.go lines 92-95): builds the server from
the packaged filesystem and the caller-supplied engine; the wrapProps
argument is accepted and dropped, and the logger is modelled by logError
effects. -/
def Static (fsys : FS) (vm : String → String → Except String String)
    (wrapProps : String → GoValue → GoValue) : staticServer :=
  staticServer.mk (httpFS fsys) (renderer.mk fsys.readFile vm)

/-- The staticServer serveHTTP helper (viewrt.go lines 151-169): open the
asset at the request path, answer 500 with the raw error text on any open
or stat error (not-found included), else serve the content with the
asset's modification time, adding the text/javascript content type for
node-module paths. The source never closes the opened file, so no close
effect occurs on any path. -/
def staticServer.serveHTTP (s : staticServer) (r : Request) : List Effect :=
  match s.hfs r.urlPath with
  | Except.error e => Effect.logError ("view: open error: " ++ e.msg) :: httpError e.msg 500
  | Except.ok file =>
    match file.statModTime with
    | Except.error m => Effect.logError ("view: stat error: " ++ m) :: httpError m 500
    | Except.ok mt =>
      (if strHasPfx r.urlPath "/bud/node_modules/" then
        [Effect.addHeader "Content-Type" "text/javascript"]
      else []) ++ [Effect.serveContent r.urlPath mt]

/-- The staticServer Middleware (viewrt.go lines 134-142): forward
non-client paths, otherwise serve the asset via serveHTTP. -/
def staticServer.Middleware (s : staticServer) (next : Request → List Effect) (r : Request) : List Effect :=
  if ¬ isClient r.urlPath then next r
  else s.serveHTTP r

/-- The staticServer respond helper (viewrt.go lines 110-123), identical to
the live one apart from its log message. -/
def staticServer.respond (s : staticServer) (path : String) (props : GoValue) : List Effect :=
  match s.rend.Render path props with
  | Except.error e => Effect.logError ("view: client open error: " ++ e) :: httpError e 500
  | Except.ok res =>
    (res.headers.map fun kv => Effect.setHeader kv.1 kv.2)
      ++ [Effect.writeHeader res.status, Effect.write res.body]

/-- The staticServer Handler (viewrt.go lines 145-149). -/
def staticServer.Handler (s : staticServer) (route : String) (props : GoValue) : Request → List Effect :=
  fun _ => s.respond route props

/-- Abstract state of the http response writer after a trace of effects:
headers applied with last-write-wins for Set and append for Add, the first
written status, and the accumulated body. -/
structure respState where
  headers : List (String × String)
  status : Option Int
  body : String
deriving Repr, DecidableEq

/-- Apply one effect to the response writer state (serving, closing and
logging do not change the writer's headers, status or body fields). -/
def applyEffect (st : respState) : Effect → respState
  | Effect.setHeader k v => { st with headers := setAssoc st.headers k v }
  | Effect.addHeader k v => { st with headers := st.headers ++ [(k, v)] }
  | Effect.writeHeader c =>
    match st.status with
    | none => { st with status := some c }
    | some _ => st
  | Effect.write b => { st with body := st.body ++ b }
  | _ => st

/-- Run a whole effect trace on the fresh response writer state. -/
def runEffects (es : List Effect) : respState :=
  es.foldl applyEffect ⟨[], none, ""⟩

/-- Fixture: an asset source on which every open succeeds and stats to the
given modification time. -/
def fsAllOk (mt : Nat) : HttpFS :=
  fun _ => Except.ok ⟨Except.ok mt⟩

/-- Fixture: an asset source on which every open fails as not-found. -/
def fsNotFound : HttpFS :=
  fun _ => Except.error ⟨true, "file does not exist"⟩

/-- Fixture: an asset source on which every open fails with a non-not-found
error. -/
def fsBroken : HttpFS :=
  fun _ => Except.error ⟨false, "remote io failure"⟩

/-- Fixture: an asset source on which opens succeed but every stat fails. -/
def fsStatBroken : HttpFS :=
  fun _ => Except.ok ⟨Except.error "stat failure"⟩

/-- Fixture: a renderer whose collaborators always fail (never reached by
the middleware paths). -/
def rendDummy : renderer :=
  ⟨fun _ => Except.error "no bundle", fun _ _ => Except.error "no engine"⟩

/-- Fixture: a next handler producing an empty trace. -/
def nextNil : Request → List Effect :=
  fun _ => []

/-- The classification test the live Middleware applies to a request path
(viewrt.go line 36): the shared isClient function. -/
def liveClassifiesAsset (path : String) : Bool :=
  isClient path

/-- The classification test the static Middleware applies to a request path
(viewrt.go line 136): the same shared isClient function. -/
def staticClassifiesAsset (path : String) : Bool :=
  isClient path

/-- C6, counterexample: the claim asserts some request path is classified
differently by the two variants, but both Middleware definitions guard with
the one shared isClient test, so no such path exists. -/
theorem no_path_classified_differently :
    ¬ ∃ p : String, liveClassifiesAsset p ≠ staticClassifiesAsset p := by
  rintro ⟨p, h⟩
  exact h rfl

/-- C6, amended: both variants classify a request path as a client asset by
the same shared test — the path starts with /bud/node_modules/ or with
/bud/view/ — so no path is classified differently, and every non-matching
path is forwarded unmodified to the next handler in both variants. -/
theorem shared_classification_and_forwarding (sl : liveServer) (ss : staticServer)
    (next : Request → List Effect) (req : Request) :
    staticClassifiesAsset req.urlPath = liveClassifiesAsset req.urlPath ∧
    liveClassifiesAsset req.urlPath =
      (strHasPfx req.urlPath "/bud/node_modules/" || strHasPfx req.urlPath "/bud/view/") ∧
    (isClient req.urlPath = false →
      sl.Middleware next req = next req ∧ ss.Middleware next req = next req) := by
  refine ⟨rfl, rfl, fun h => ⟨?_, ?_⟩⟩
  · simp [liveServer.Middleware, h]
  · simp [staticServer.Middleware, h]

/-- C6, witness for the amended theorem at a non-matching concrete path. -/
theorem shared_classification_witness :
    isClient "/api/users" = false ∧
    liveServer.Middleware ⟨fsAllOk 3, rendDummy⟩ nextNil ⟨"/api/users", "GET"⟩
      = nextNil ⟨"/api/users", "GET"⟩ ∧
    staticServer.Middleware ⟨fsAllOk 3, rendDummy⟩ nextNil ⟨"/api/users", "GET"⟩
      = nextNil ⟨"/api/users", "GET"⟩ := by
  refine ⟨by decide, ?_, ?_⟩
  · exact ((shared_classification_and_forwarding ⟨fsAllOk 3, rendDummy⟩
      ⟨fsAllOk 3, rendDummy⟩ nextNil ⟨"/api/users", "GET"⟩).2.2 (by decide)).1
  · exact ((shared_classification_and_forwarding ⟨fsAllOk 3, rendDummy⟩
      ⟨fsAllOk 3, rendDummy⟩ nextNil ⟨"/api/users", "GET"⟩).2.2 (by decide)).2

/-- C10: the wrapProps argument of the Static constructor is never invoked:
the constructed server — and with it every middleware trace and every
route-handler trace — is identical for any two wrapProps values, because
the props value reaches the renderer unwrapped. -/
theorem static_wrapProps_unused (fsys : FS) (vm : String → String → Except String String)
    (w1 w2 : String → GoValue → GoValue) :
    Static fsys vm w1 = Static fsys vm w2 ∧
    (∀ next req, (Static fsys vm w1).Middleware next req = (Static fsys vm w2).Middleware next req) ∧
    (∀ route props req,
      (Static fsys vm w1).Handler route props req = (Static fsys vm w2).Handler route props req) :=
  ⟨rfl, fun _ _ => rfl, fun _ _ _ => rfl⟩

/-- C7: at the failing input — the static variant serving an existing,
statable client asset — the serveHTTP trace never closes the opened handle
(no close effect on the success path, nor on the stat-error path), whereas
the live middleware on the same request does close its handle. -/
theorem static_never_closes_handle :
    staticServer.serveHTTP ⟨fsAllOk 5, rendDummy⟩ ⟨"/bud/view/index.js", "GET"⟩
      = [Effect.serveContent "/bud/view/index.js" 5] ∧
    Effect.close ∉ staticServer.serveHTTP ⟨fsAllOk 5, rendDummy⟩ ⟨"/bud/view/index.js", "GET"⟩ ∧
    Effect.close ∉ staticServer.serveHTTP ⟨fsStatBroken, rendDummy⟩ ⟨"/bud/view/index.js", "GET"⟩ ∧
    liveServer.Middleware ⟨fsAllOk 5, rendDummy⟩ nextNil ⟨"/bud/view/index.js", "GET"⟩
      = [Effect.serveContent "/bud/view/index.js" 5, Effect.close] := by
  refine ⟨by decide, by decide, by decide, by decide⟩

/-- C4: for requests the live middleware classifies as client assets, a
not-found open error answers 404 with the error text as body, any other
open or stat error answers 500 with the error text as body, and success
serves the content with the asset's modification time. -/
theorem live_asset_error_handling (s : liveServer) (next : Request → List Effect) (req : Request)
    (hc : isClient req.urlPath = true) :
    (∀ e, s.hfs (trimLeadingSlash req.urlPath) = Except.error e → e.notExist = true →
      s.Middleware next req = httpError e.msg 404 ∧
      runEffects (s.Middleware next req) =
        ⟨[("Content-Type", "text/plain; charset=utf-8"), ("X-Content-Type-Options", "nosniff")],
         some 404, e.msg ++ "\n"⟩) ∧
    (∀ e, s.hfs (trimLeadingSlash req.urlPath) = Except.error e → e.notExist = false →
      s.Middleware next req = Effect.logError ("view: open error: " ++ e.msg) :: httpError e.msg 500 ∧
      runEffects (s.Middleware next req) =
        ⟨[("Content-Type", "text/plain; charset=utf-8"), ("X-Content-Type-Options", "nosniff")],
         some 500, e.msg ++ "\n"⟩) ∧
    (∀ f m, s.hfs (trimLeadingSlash req.urlPath) = Except.ok f → f.statModTime = Except.error m →
      s.Middleware next req =
        (Effect.logError ("view: stat error: " ++ m) :: httpError m 500) ++ [Effect.close] ∧
      runEffects (s.Middleware next req) =
        ⟨[("Content-Type", "text/plain; charset=utf-8"), ("X-Content-Type-Options", "nosniff")],
         some 500, m ++ "\n"⟩) ∧
    (∀ f mt, s.hfs (trimLeadingSlash req.urlPath) = Except.ok f → f.statModTime = Except.ok mt →
      s.Middleware next req =
        (if strHasPfx req.urlPath "/bud/node_modules/" || strHasSfx req.urlPath ".svelte" then
          [Effect.setHeader "Content-Type" "application/javascript"]
        else []) ++ [Effect.serveContent req.urlPath mt, Effect.close]) := by
  refine ⟨fun e he hn => ⟨?_, ?_⟩, fun e he hn => ⟨?_, ?_⟩, fun f m hf hm => ⟨?_, ?_⟩,
    fun f mt hf hm => ?_⟩
  · simp [liveServer.Middleware, hc, he, hn, httpError]
  · simp [liveServer.Middleware, hc, he, hn, httpError, runEffects, applyEffect, setAssoc]
  · simp [liveServer.Middleware, hc, he, hn, httpError]
  · simp [liveServer.Middleware, hc, he, hn, httpError, runEffects, applyEffect, setAssoc]
  · simp [liveServer.Middleware, hc, hf, hm, httpError]
  · simp [liveServer.Middleware, hc, hf, hm, httpError, runEffects, applyEffect, setAssoc]
  · simp [liveServer.Middleware, hc, hf, hm]

/-- C4, witness: the four branches at concrete inputs. -/
theorem live_asset_error_handling_witness :
    isClient "/bud/view/a.svelte" = true ∧
    liveServer.Middleware ⟨fsNotFound, rendDummy⟩ nextNil ⟨"/bud/view/a.svelte", "GET"⟩
      = httpError "file does not exist" 404 ∧
    liveServer.Middleware ⟨fsBroken, rendDummy⟩ nextNil ⟨"/bud/view/a.svelte", "GET"⟩
      = Effect.logError ("view: open error: " ++ "remote io failure")
        :: httpError "remote io failure" 500 ∧
    liveServer.Middleware ⟨fsStatBroken, rendDummy⟩ nextNil ⟨"/bud/view/a.svelte", "GET"⟩
      = (Effect.logError ("view: stat error: " ++ "stat failure") :: httpError "stat failure" 500)
        ++ [Effect.close] ∧
    liveServer.Middleware ⟨fsAllOk 9, rendDummy⟩ nextNil ⟨"/bud/view/a.svelte", "GET"⟩
      = [Effect.setHeader "Content-Type" "application/javascript",
         Effect.serveContent "/bud/view/a.svelte" 9, Effect.close] := by
  refine ⟨by decide, ?_, ?_, ?_, ?_⟩
  · exact ((live_asset_error_handling ⟨fsNotFound, rendDummy⟩ nextNil
      ⟨"/bud/view/a.svelte", "GET"⟩ (by decide)).1 ⟨true, "file does not exist"⟩ rfl rfl).1
  · exact ((live_asset_error_handling ⟨fsBroken, rendDummy⟩ nextNil
      ⟨"/bud/view/a.svelte", "GET"⟩ (by decide)).2.1 ⟨false, "remote io failure"⟩ rfl rfl).1
  · exact ((live_asset_error_handling ⟨fsStatBroken, rendDummy⟩ nextNil
      ⟨"/bud/view/a.svelte", "GET"⟩ (by decide)).2.2.1 ⟨Except.error "stat failure"⟩
        "stat failure" rfl rfl).1
  · have h := (live_asset_error_handling ⟨fsAllOk 9, rendDummy⟩ nextNil
      ⟨"/bud/view/a.svelte", "GET"⟩ (by decide)).2.2.2 ⟨Except.ok 9⟩ 9 rfl rfl
    simpa using h

/-- C5: for requests the static middleware classifies as client assets,
every open error — the not-found case included — and every stat error
answers 500 with the error text as body, and no outcome of the static
middleware ever writes a 404 status. -/
theorem static_asset_errors_500 (s : staticServer) (next : Request → List Effect) (req : Request)
    (hc : isClient req.urlPath = true) :
    (∀ e, s.hfs req.urlPath = Except.error e →
      s.Middleware next req = Effect.logError ("view: open error: " ++ e.msg) :: httpError e.msg 500 ∧
      runEffects (s.Middleware next req) =
        ⟨[("Content-Type", "text/plain; charset=utf-8"), ("X-Content-Type-Options", "nosniff")],
         some 500, e.msg ++ "\n"⟩) ∧
    (∀ f m, s.hfs req.urlPath = Except.ok f → f.statModTime = Except.error m →
      s.Middleware next req = Effect.logError ("view: stat error: " ++ m) :: httpError m 500 ∧
      runEffects (s.Middleware next req) =
        ⟨[("Content-Type", "text/plain; charset=utf-8"), ("X-Content-Type-Options", "nosniff")],
         some 500, m ++ "\n"⟩) ∧
    (runEffects (s.Middleware next req)).status ≠ some 404 := by
  refine ⟨fun e he => ⟨?_, ?_⟩, fun f m hf hm => ⟨?_, ?_⟩, ?_⟩
  · simp [staticServer.Middleware, staticServer.serveHTTP, hc, he, httpError]
  · simp [staticServer.Middleware, staticServer.serveHTTP, hc, he, httpError, runEffects,
      applyEffect, setAssoc]
  · simp [staticServer.Middleware, staticServer.serveHTTP, hc, hf, hm, httpError]
  · simp [staticServer.Middleware, staticServer.serveHTTP, hc, hf, hm, httpError, runEffects,
      applyEffect, setAssoc]
  · match ho : s.hfs req.urlPath with
    | Except.error e =>
      simp [staticServer.Middleware, staticServer.serveHTTP, hc, ho, httpError, runEffects,
        applyEffect, setAssoc]
    | Except.ok f =>
      match hm : f.statModTime with
      | Except.error m =>
        simp [staticServer.Middleware, staticServer.serveHTTP, hc, ho, hm, httpError, runEffects,
          applyEffect, setAssoc]
      | Except.ok mt =>
        by_cases hp : strHasPfx req.urlPath "/bud/node_modules/" <;>
          simp [staticServer.Middleware, staticServer.serveHTTP, hc, ho, hm, hp, runEffects,
            applyEffect]

/-- C5, witness: a missing asset under the node-module path answers 500, not
404, in the static variant. -/
theorem static_asset_errors_500_witness :
    isClient "/bud/node_modules/livebud/runtime" = true ∧
    staticServer.Middleware ⟨fsNotFound, rendDummy⟩ nextNil ⟨"/bud/node_modules/livebud/runtime", "GET"⟩
      = Effect.logError ("view: open error: " ++ "file does not exist")
        :: httpError "file does not exist" 500 ∧
    (runEffects (staticServer.Middleware ⟨fsNotFound, rendDummy⟩ nextNil
      ⟨"/bud/node_modules/livebud/runtime", "GET"⟩)).status ≠ some 404 := by
  refine ⟨by decide, ?_, ?_⟩
  · exact ((static_asset_errors_500 ⟨fsNotFound, rendDummy⟩ nextNil
      ⟨"/bud/node_modules/livebud/runtime", "GET"⟩ (by decide)).1
        ⟨true, "file does not exist"⟩ rfl).1
  · exact (static_asset_errors_500 ⟨fsNotFound, rendDummy⟩ nextNil
      ⟨"/bud/node_modules/livebud/runtime", "GET"⟩ (by decide)).2.2

/-- C8: before serving a successfully opened asset, the live middleware sets
Content-Type to application/javascript exactly when the path starts with
/bud/node_modules/ or ends with .svelte, the static middleware adds
Content-Type text/javascript exactly when the path starts with
/bud/node_modules/, and in all other cases neither variant touches the
Content-Type header on the success path. -/
theorem content_type_overrides (sl : liveServer) (ss : staticServer)
    (next : Request → List Effect) (req : Request) (hc : isClient req.urlPath = true)
    (fl fl2 : FileHandle) (ml ms : Nat)
    (hlo : sl.hfs (trimLeadingSlash req.urlPath) = Except.ok fl)
    (hls : fl.statModTime = Except.ok ml)
    (hso : ss.hfs req.urlPath = Except.ok fl2)
    (hss : fl2.statModTime = Except.ok ms) :
    sl.Middleware next req =
      (if strHasPfx req.urlPath "/bud/node_modules/" || strHasSfx req.urlPath ".svelte" then
        [Effect.setHeader "Content-Type" "application/javascript"]
      else []) ++ [Effect.serveContent req.urlPath ml, Effect.close] ∧
    ss.Middleware next req =
      (if strHasPfx req.urlPath "/bud/node_modules/" then
        [Effect.addHeader "Content-Type" "text/javascript"]
      else []) ++ [Effect.serveContent req.urlPath ms] ∧
    (Effect.setHeader "Content-Type" "application/javascript" ∈ sl.Middleware next req ↔
      (strHasPfx req.urlPath "/bud/node_modules/" || strHasSfx req.urlPath ".svelte") = true) ∧
    (Effect.addHeader "Content-Type" "text/javascript" ∈ ss.Middleware next req ↔
      strHasPfx req.urlPath "/bud/node_modules/" = true) ∧
    ((strHasPfx req.urlPath "/bud/node_modules/" || strHasSfx req.urlPath ".svelte") = false →
      ∀ v, Effect.setHeader "Content-Type" v ∉ sl.Middleware next req ∧
        Effect.addHeader "Content-Type" v ∉ sl.Middleware next req) ∧
    (strHasPfx req.urlPath "/bud/node_modules/" = false →
      ∀ v, Effect.setHeader "Content-Type" v ∉ ss.Middleware next req ∧
        Effect.addHeader "Content-Type" v ∉ ss.Middleware next req) := by
  have hl : sl.Middleware next req =
      (if strHasPfx req.urlPath "/bud/node_modules/" || strHasSfx req.urlPath ".svelte" then
        [Effect.setHeader "Content-Type" "application/javascript"]
      else []) ++ [Effect.serveContent req.urlPath ml, Effect.close] := by
    simp [liveServer.Middleware, hc, hlo, hls]
  have hs : ss.Middleware next req =
      (if strHasPfx req.urlPath "/bud/node_modules/" then
        [Effect.addHeader "Content-Type" "text/javascript"]
      else []) ++ [Effect.serveContent req.urlPath ms] := by
    simp [staticServer.Middleware, staticServer.serveHTTP, hc, hso, hss]
  refine ⟨hl, hs, ?_, ?_, ?_, ?_⟩
  · rw [hl]
    by_cases hb : strHasPfx req.urlPath "/bud/node_modules/" || strHasSfx req.urlPath ".svelte" <;>
      simp [hb]
  · rw [hs]
    by_cases hb : strHasPfx req.urlPath "/bud/node_modules/" <;> simp [hb]
  · intro hb v
    rw [hl, hb]
    simp
  · intro hb v
    rw [hs, hb]
    simp

/-- C8, witness: a node-module path gets both overrides, a view path with
neither prefix nor suffix gets none. -/
theorem content_type_overrides_witness :
    isClient "/bud/node_modules/livebud/runtime" = true ∧
    (Effect.setHeader "Content-Type" "application/javascript" ∈
      liveServer.Middleware ⟨fsAllOk 2, rendDummy⟩ nextNil
        ⟨"/bud/node_modules/livebud/runtime", "GET"⟩) ∧
    (Effect.addHeader "Content-Type" "text/javascript" ∈
      staticServer.Middleware ⟨fsAllOk 2, rendDummy⟩ nextNil
        ⟨"/bud/node_modules/livebud/runtime", "GET"⟩) ∧
    isClient "/bud/view/data.json" = true ∧
    (∀ v, Effect.setHeader "Content-Type" v ∉
      liveServer.Middleware ⟨fsAllOk 2, rendDummy⟩ nextNil ⟨"/bud/view/data.json", "GET"⟩ ∧
      Effect.addHeader "Content-Type" v ∉
        liveServer.Middleware ⟨fsAllOk 2, rendDummy⟩ nextNil ⟨"/bud/view/data.json", "GET"⟩) ∧
    (∀ v, Effect.setHeader "Content-Type" v ∉
      staticServer.Middleware ⟨fsAllOk 2, rendDummy⟩ nextNil ⟨"/bud/view/data.json", "GET"⟩ ∧
      Effect.addHeader "Content-Type" v ∉
        staticServer.Middleware ⟨fsAllOk 2, rendDummy⟩ nextNil ⟨"/bud/view/data.json", "GET"⟩) := by
  refine ⟨by decide, ?_, ?_, by decide, ?_, ?_⟩
  · exact (content_type_overrides ⟨fsAllOk 2, rendDummy⟩ ⟨fsAllOk 2, rendDummy⟩ nextNil
      ⟨"/bud/node_modules/livebud/runtime", "GET"⟩ (by decide) ⟨Except.ok 2⟩ ⟨Except.ok 2⟩ 2 2
      rfl rfl rfl rfl).2.2.1.mpr (by decide)
  · exact (content_type_overrides ⟨fsAllOk 2, rendDummy⟩ ⟨fsAllOk 2, rendDummy⟩ nextNil
      ⟨"/bud/node_modules/livebud/runtime", "GET"⟩ (by decide) ⟨Except.ok 2⟩ ⟨Except.ok 2⟩ 2 2
      rfl rfl rfl rfl).2.2.2.1.mpr (by decide)
  · exact (content_type_overrides ⟨fsAllOk 2, rendDummy⟩ ⟨fsAllOk 2, rendDummy⟩ nextNil
      ⟨"/bud/view/data.json", "GET"⟩ (by decide) ⟨Except.ok 2⟩ ⟨Except.ok 2⟩ 2 2
      rfl rfl rfl rfl).2.2.2.2.1 (by decide)
  · exact (content_type_overrides ⟨fsAllOk 2, rendDummy⟩ ⟨fsAllOk 2, rendDummy⟩ nextNil
      ⟨"/bud/view/data.json", "GET"⟩ (by decide) ⟨Except.ok 2⟩ ⟨Except.ok 2⟩ 2 2
      rfl rfl rfl rfl).2.2.2.2.2 (by decide)

/-- Applying a trace of header-set effects folds the headers into the writer
state with last-write-wins. -/
theorem foldl_setHeader_effects (hs : List (String × String)) (st : respState) :
    (hs.map fun kv => Effect.setHeader kv.1 kv.2).foldl applyEffect st
      = { st with headers := hs.foldl (fun acc kv => setAssoc acc kv.1 kv.2) st.headers } := by
  induction hs generalizing st with
  | nil => rfl
  | cons kv tl ih => simp [applyEffect, ih]

/-- C9: the terminal handler of either variant writes, on a successful
render, each response header (duplicate keys overwriting), then the status,
then the body, in that order; on a renderer error it writes only the logged
500 error response with the raw message as body and none of the response's
headers, status or body. -/
theorem handler_write_order (sl : liveServer) (ss : staticServer) (route : String)
    (props : GoValue) (req : Request) :
    (∀ res, sl.rend.Render route props = Except.ok res →
      sl.Handler route props req =
        (res.headers.map fun kv => Effect.setHeader kv.1 kv.2)
          ++ [Effect.writeHeader res.status, Effect.write res.body] ∧
      runEffects (sl.Handler route props req) =
        ⟨res.headers.foldl (fun acc kv => setAssoc acc kv.1 kv.2) [], some res.status, res.body⟩) ∧
    (∀ e, sl.rend.Render route props = Except.error e →
      sl.Handler route props req =
        Effect.logError ("view: render error: " ++ e) :: httpError e 500 ∧
      runEffects (sl.Handler route props req) =
        ⟨[("Content-Type", "text/plain; charset=utf-8"), ("X-Content-Type-Options", "nosniff")],
         some 500, e ++ "\n"⟩) ∧
    (∀ res, ss.rend.Render route props = Except.ok res →
      ss.Handler route props req =
        (res.headers.map fun kv => Effect.setHeader kv.1 kv.2)
          ++ [Effect.writeHeader res.status, Effect.write res.body] ∧
      runEffects (ss.Handler route props req) =
        ⟨res.headers.foldl (fun acc kv => setAssoc acc kv.1 kv.2) [], some res.status, res.body⟩) ∧
    (∀ e, ss.rend.Render route props = Except.error e →
      ss.Handler route props req =
        Effect.logError ("view: client open error: " ++ e) :: httpError e 500 ∧
      runEffects (ss.Handler route props req) =
        ⟨[("Content-Type", "text/plain; charset=utf-8"), ("X-Content-Type-Options", "nosniff")],
         some 500, e ++ "\n"⟩) := by
  refine ⟨fun res h => ⟨?_, ?_⟩, fun e h => ⟨?_, ?_⟩, fun res h => ⟨?_, ?_⟩, fun e h => ⟨?_, ?_⟩⟩
  · simp [liveServer.Handler, liveServer.respond, h]
  · simp [liveServer.Handler, liveServer.respond, h, runEffects, List.foldl_append,
      foldl_setHeader_effects, applyEffect]
  · simp [liveServer.Handler, liveServer.respond, h, httpError]
  · simp [liveServer.Handler, liveServer.respond, h, httpError, runEffects, applyEffect, setAssoc]
  · simp [staticServer.Handler, staticServer.respond, h]
  · simp [staticServer.Handler, staticServer.respond, h, runEffects, List.foldl_append,
      foldl_setHeader_effects, applyEffect]
  · simp [staticServer.Handler, staticServer.respond, h, httpError]
  · simp [staticServer.Handler, staticServer.respond, h, httpError, runEffects, applyEffect,
      setAssoc]

/-- Modelled from the spec: the failure stages of Render as the spec
enumerates them — props serialization failure, bundle read failure at the
fixed logical path bud/view/_ssr.js, engine evaluation failure, an engine
result that is not valid JSON for the response type, or a decoded status
outside 100..999. -/
def renderFailureSpec (rd : renderer) (route : String) (props : GoValue) : Prop :=
  (∃ e, jsonMarshal props = Except.error e) ∨
  (∃ pb, jsonMarshal props = Except.ok pb ∧
    ((∃ e, rd.fsys "bud/view/_ssr.js" = Except.error e) ∨
     (∃ sc, rd.fsys "bud/view/_ssr.js" = Except.ok sc ∧
       ((∃ e, rd.vm "_ssr.js" (renderExpr sc route pb) = Except.error e) ∨
        (∃ r, rd.vm "_ssr.js" (renderExpr sc route pb) = Except.ok r ∧
          (unmarshalResponse r = none ∨
           (∃ res, unmarshalResponse r = some res ∧
             (res.status < 100 ∨ res.status > 999))))))))

/-- C1: Render returns an error exactly when one of its stages fails — props
marshal, bundle read at bud/view/_ssr.js, engine evaluation, response
unmarshal, or the 100..999 status validation — and when the only failure is
an out-of-range status the error names that status value, while a fully
successful pipeline returns the decoded response itself. -/
theorem render_error_iff (rd : renderer) (route : String) (props : GoValue) :
    ((∃ e, rd.Render route props = Except.error e) ↔ renderFailureSpec rd route props) ∧
    (∀ pb sc r res, jsonMarshal props = Except.ok pb →
      rd.fsys "bud/view/_ssr.js" = Except.ok sc →
      rd.vm "_ssr.js" (renderExpr sc route pb) = Except.ok r →
      unmarshalResponse r = some res →
      ((res.status < 100 ∨ res.status > 999) →
        rd.Render route props = Except.error ("view: invalid status code " ++ intRepr res.status)) ∧
      (100 ≤ res.status → res.status ≤ 999 → rd.Render route props = Except.ok res)) := by
  constructor
  · constructor
    · rintro ⟨e, he⟩
      unfold renderFailureSpec
      cases h1 : jsonMarshal props with
      | error e1 => exact Or.inl ⟨e1, rfl⟩
      | ok pb =>
        refine Or.inr ⟨pb, rfl, ?_⟩
        cases h2 : rd.fsys "bud/view/_ssr.js" with
        | error e2 => exact Or.inl ⟨e2, rfl⟩
        | ok sc =>
          refine Or.inr ⟨sc, rfl, ?_⟩
          cases h3 : rd.vm "_ssr.js" (renderExpr sc route pb) with
          | error e3 => exact Or.inl ⟨e3, rfl⟩
          | ok r =>
            refine Or.inr ⟨r, rfl, ?_⟩
            cases h4 : unmarshalResponse r with
            | none => exact Or.inl rfl
            | some res =>
              refine Or.inr ⟨res, rfl, ?_⟩
              by_cases h5 : res.status < 100 ∨ res.status > 999
              · exact h5
              · exfalso
                have hok : rd.Render route props = Except.ok res := by
                  simp [renderer.Render, h1, h2, h3, h4, h5]
                rw [hok] at he
                simp at he
    · intro hspec
      rcases hspec with ⟨e1, h1⟩ | ⟨pb, h1, hrest⟩
      · exact ⟨e1, by simp [renderer.Render, h1]⟩
      rcases hrest with ⟨e2, h2⟩ | ⟨sc, h2, hrest⟩
      · exact ⟨e2, by simp [renderer.Render, h1, h2]⟩
      rcases hrest with ⟨e3, h3⟩ | ⟨r, h3, hrest⟩
      · exact ⟨e3, by simp [renderer.Render, h1, h2, h3]⟩
      rcases hrest with h4 | ⟨res, h4, h5⟩
      · exact ⟨"json unmarshal error", by simp [renderer.Render, h1, h2, h3, h4]⟩
      · exact ⟨"view: invalid status code " ++ intRepr res.status,
          by simp [renderer.Render, h1, h2, h3, h4, h5]⟩
  · intro pb sc r res h1 h2 h3 h4
    constructor
    · intro h5
      simp [renderer.Render, h1, h2, h3, h4, h5]
    · intro hlo hhi
      have h5 : ¬ (res.status < 100 ∨ res.status > 999) := by omega
      simp [renderer.Render, h1, h2, h3, h4, h5]

/-- C1, witness: an engine echoing an empty JSON object leaves the zero
status, which the validation rejects naming the value 0. -/
theorem render_error_iff_witness :
    jsonMarshal GoValue.null = Except.ok "null" ∧
    unmarshalResponse "\x7b\x7d" = some ⟨0, [], ""⟩ ∧
    renderer.Render ⟨fun _ => Except.ok "var bud = 0", fun _ _ => Except.ok "\x7b\x7d"⟩ "/"
        GoValue.null
      = Except.error "view: invalid status code 0" := by
  refine ⟨rfl, rfl, ?_⟩
  have h := ((render_error_iff
    ⟨fun _ => Except.ok "var bud = 0", fun _ _ => Except.ok "\x7b\x7d"⟩ "/" GoValue.null).2
    "null" "var bud = 0" "\x7b\x7d" ⟨0, [], ""⟩ rfl rfl rfl rfl).1 (Or.inl (by decide))
  exact h.trans rfl

/-- Hexadecimal digit characters are neither a quotation mark nor a
backslash. -/
theorem hexDigitChar_ne (n : Nat) : hexDigitChar n ≠ '"' ∧ hexDigitChar n ≠ '\\' := by
  unfold hexDigitChar
  split <;> exact ⟨by decide, by decide⟩

/-- A backslash followed by any character passes the literal-safety scanner
as one complete escape unit. -/
theorem wellEscaped_esc (x : Char) (rest : List Char) :
    wellEscaped ('\\' :: x :: rest) = wellEscaped rest := rfl

/-- A character that is neither a backslash nor a quotation mark passes the
literal-safety scanner unchanged. -/
theorem wellEscaped_safe (c : Char) (rest : List Char) (h1 : ¬ c = '\\') (h2 : ¬ c = '"') :
    wellEscaped (c :: rest) = wellEscaped rest := by
  rw [wellEscaped.eq_def]
  simp only [if_neg h1, if_neg h2]

/-- One Go-quoted character leaves the literal-safety scanner where it
started: every emitted unit is a complete escape or a safe raw character. -/
theorem wellEscaped_goQuoteChar_append (c : Char) (rest : List Char) :
    wellEscaped (goQuoteChar c ++ rest) = wellEscaped rest := by
  by_cases h1 : c = '"'
  · rw [goQuoteChar, if_pos h1]
    exact wellEscaped_esc '"' rest
  by_cases h2 : c = '\\'
  · rw [goQuoteChar, if_neg h1, if_pos h2]
    exact wellEscaped_esc '\\' rest
  by_cases h3 : 32 ≤ c.toNat ∧ c.toNat ≤ 126
  · rw [goQuoteChar, if_neg h1, if_neg h2, if_pos h3]
    exact wellEscaped_safe c rest h2 h1
  by_cases h4 : c.toNat = 7
  · rw [goQuoteChar, if_neg h1, if_neg h2, if_neg h3, if_pos h4]
    exact wellEscaped_esc 'a' rest
  by_cases h5 : c.toNat = 8
  · rw [goQuoteChar, if_neg h1, if_neg h2, if_neg h3, if_neg h4, if_pos h5]
    exact wellEscaped_esc 'b' rest
  by_cases h6 : c.toNat = 12
  · rw [goQuoteChar, if_neg h1, if_neg h2, if_neg h3, if_neg h4, if_neg h5, if_pos h6]
    exact wellEscaped_esc 'f' rest
  by_cases h7 : c = '\n'
  · rw [goQuoteChar, if_neg h1, if_neg h2, if_neg h3, if_neg h4, if_neg h5, if_neg h6, if_pos h7]
    exact wellEscaped_esc 'n' rest
  by_cases h8 : c = '\r'
  · rw [goQuoteChar, if_neg h1, if_neg h2, if_neg h3, if_neg h4, if_neg h5, if_neg h6, if_neg h7,
      if_pos h8]
    exact wellEscaped_esc 'r' rest
  by_cases h9 : c = '\t'
  · rw [goQuoteChar, if_neg h1, if_neg h2, if_neg h3, if_neg h4, if_neg h5, if_neg h6, if_neg h7,
      if_neg h8, if_pos h9]
    exact wellEscaped_esc 't' rest
  by_cases h10 : c.toNat = 11
  · rw [goQuoteChar, if_neg h1, if_neg h2, if_neg h3, if_neg h4, if_neg h5, if_neg h6, if_neg h7,
      if_neg h8, if_neg h9, if_pos h10]
    exact wellEscaped_esc 'v' rest
  by_cases h11 : c.toNat < 32 ∨ c.toNat = 127
  · rw [goQuoteChar, if_neg h1, if_neg h2, if_neg h3, if_neg h4, if_neg h5, if_neg h6, if_neg h7,
      if_neg h8, if_neg h9, if_neg h10, if_pos h11]
    exact (wellEscaped_esc 'x' _).trans
      ((wellEscaped_safe _ _ (hexDigitChar_ne _).2 (hexDigitChar_ne _).1).trans
        (wellEscaped_safe _ _ (hexDigitChar_ne _).2 (hexDigitChar_ne _).1))
  · rw [goQuoteChar, if_neg h1, if_neg h2, if_neg h3, if_neg h4, if_neg h5, if_neg h6, if_neg h7,
      if_neg h8, if_neg h9, if_neg h10, if_neg h11]
    exact wellEscaped_safe c rest h2 h1

/-- The Go-quoted body of any route is literal-safe: no unescaped quotation
mark and no dangling backslash. -/
theorem wellEscaped_goQuoteBody (s : String) : wellEscaped (goQuoteBody s) = true := by
  suffices h : ∀ l : List Char, wellEscaped ((l.map goQuoteChar).flatten) = true from h s.data
  intro l
  induction l with
  | nil => rfl
  | cons c tl ih => simpa [wellEscaped_goQuoteChar_append] using ih

/-- C2: when marshal and bundle read succeed, Render depends on the engine
only through one call with unit name _ssr.js and the expression that is
exactly the bundle source, then a semicolon and space, then a bud.render
call whose first argument is the route as a Go-quoted string literal —
whose body never breaks out of the literal — and whose second argument is
the marshalled props inserted verbatim. -/
theorem render_engine_invocation (fsys : String → Except String String)
    (vm : String → String → Except String String) (route : String) (props : GoValue)
    (pb sc : String) (h1 : jsonMarshal props = Except.ok pb)
    (h2 : fsys "bud/view/_ssr.js" = Except.ok sc) :
    renderer.Render ⟨fsys, vm⟩ route props
      = renderFinish (vm "_ssr.js" (sc ++ "; bud.render(" ++ goQuote route ++ ", " ++ pb ++ ")")) ∧
    goQuote route = String.mk ('"' :: goQuoteBody route ++ ['"']) ∧
    wellEscaped (goQuoteBody route) = true := by
  refine ⟨?_, rfl, wellEscaped_goQuoteBody route⟩
  cases h3 : vm "_ssr.js" (renderExpr sc route pb) with
  | error e => simp [renderer.Render, renderFinish, renderExpr, h1, h2, h3]
  | ok r => simp [renderer.Render, renderFinish, renderExpr, h1, h2, h3]

/-- C2, witness: a spy engine that returns its expression as the error
shows the exact invocation for a route containing a quotation mark and a
backslash. -/
theorem render_engine_invocation_witness :
    jsonMarshal (GoValue.obj [("name", GoValue.str "world")])
      = Except.ok "\x7b\"name\":\"world\"\x7d" ∧
    renderer.Render ⟨fun _ => Except.ok "var bud = 0", fun _ expr => Except.error expr⟩
        "/a\"b\\c" (GoValue.obj [("name", GoValue.str "world")])
      = Except.error "var bud = 0; bud.render(\"/a\\\"b\\\\c\", \x7b\"name\":\"world\"\x7d)" ∧
    wellEscaped (goQuoteBody "/a\"b\\c") = true := by
  refine ⟨rfl, ?_, ?_⟩
  · have h := (render_engine_invocation (fun _ => Except.ok "var bud = 0")
      (fun _ expr => Except.error expr) "/a\"b\\c" (GoValue.obj [("name", GoValue.str "world")])
      "\x7b\"name\":\"world\"\x7d" "var bud = 0" rfl rfl).1
    exact h.trans rfl
  · exact (render_engine_invocation (fun _ => Except.ok "var bud = 0")
      (fun _ expr => Except.error expr) "/a\"b\\c" (GoValue.obj [("name", GoValue.str "world")])
      "\x7b\"name\":\"world\"\x7d" "var bud = 0" rfl rfl).2.2

/-- Fixture: a renderer whose engine echoes one fixed success response. -/
def rendEcho : renderer :=
  ⟨fun _ => Except.ok "var bud = 0",
   fun _ _ => Except.ok
     "\x7b\"status\":200,\"headers\":\x7b\"Content-Type\":\"text/html\"\x7d,\"body\":\"hi\"\x7d"⟩

/-- C9, witness: one successful render written in header-status-body order
and one failed render answered only with the logged 500 response. -/
theorem handler_write_order_witness :
    renderer.Render rendEcho "/" GoValue.null
      = Except.ok ⟨200, [("Content-Type", "text/html")], "hi"⟩ ∧
    liveServer.Handler ⟨fsAllOk 1, rendEcho⟩ "/" GoValue.null ⟨"/", "GET"⟩
      = [Effect.setHeader "Content-Type" "text/html", Effect.writeHeader 200, Effect.write "hi"] ∧
    renderer.Render rendDummy "/" GoValue.null = Except.error "no bundle" ∧
    staticServer.Handler ⟨fsAllOk 1, rendDummy⟩ "/" GoValue.null ⟨"/", "GET"⟩
      = Effect.logError ("view: client open error: " ++ "no bundle")
        :: httpError "no bundle" 500 := by
  refine ⟨rfl, ?_, rfl, ?_⟩
  · have h := ((handler_write_order ⟨fsAllOk 1, rendEcho⟩ ⟨fsAllOk 1, rendDummy⟩ "/" GoValue.null
      ⟨"/", "GET"⟩).1 ⟨200, [("Content-Type", "text/html")], "hi"⟩ rfl).1
    exact h.trans rfl
  · exact ((handler_write_order ⟨fsAllOk 1, rendEcho⟩ ⟨fsAllOk 1, rendDummy⟩ "/" GoValue.null
      ⟨"/", "GET"⟩).2.2.2 "no bundle" rfl).1

theorem escapeList_cons (c : Char) (tl : List Char) :
    escapeList (c :: tl) = escapeChar c ++ escapeList tl := by
  simp [escapeList]

theorem hexDigitChar_isHex (k : Nat) : isHexDigit (hexDigitChar k) = true := by
  unfold hexDigitChar
  split <;> decide

theorem hexVal_hexDigitChar (k : Nat) (h : k < 16) : hexVal (hexDigitChar k) = k := by
  interval_cases k <;> decide

theorem parseStringBody_escapeList (l : List Char) (rest : List Char) :
    parseStringBody (escapeList l ++ '"' :: rest) = some (l, rest) := by
  induction l with
  | nil =>
    rw [show escapeList [] = [] from rfl, List.nil_append, parseStringBody.eq_def]
    simp
  | cons c tl ih =>
    rw [escapeList_cons, List.append_assoc]
    by_cases h1 : c = '"'
    · rw [escapeChar, if_pos h1, h1, parseStringBody.eq_def]
      simp [escTable, ih]
    by_cases h2 : c = '\\'
    · rw [escapeChar, if_neg h1, if_pos h2, h2, parseStringBody.eq_def]
      simp [escTable, ih]
    by_cases h3 : c = '\n'
    · rw [escapeChar, if_neg h1, if_neg h2, if_pos h3, h3, parseStringBody.eq_def]
      simp [escTable, ih]
    by_cases h4 : c = '\r'
    · rw [escapeChar, if_neg h1, if_neg h2, if_neg h3, if_pos h4, h4, parseStringBody.eq_def]
      simp [escTable, ih]
    by_cases h5 : c = '\t'
    · rw [escapeChar, if_neg h1, if_neg h2, if_neg h3, if_neg h4, if_pos h5, h5,
        parseStringBody.eq_def]
      simp [escTable, ih]
    by_cases h6 : c.toNat < 32
    · rw [escapeChar, if_neg h1, if_neg h2, if_neg h3, if_neg h4, if_neg h5, if_pos h6]
      have hhex : hexQuadChar '0' '0' (hexDigitChar (c.toNat / 16)) (hexDigitChar (c.toNat % 16))
          = some c := by
        rw [hexQuadChar]
        rw [if_pos (by simp [hexDigitChar_isHex, show isHexDigit '0' = true from by decide])]
        rw [hexVal_hexDigitChar _ (by omega), hexVal_hexDigitChar _ (by omega)]
        have hv : hexVal '0' * 4096 + hexVal '0' * 256 + c.toNat / 16 * 16 + c.toNat % 16
            = c.toNat := by
          have := Nat.div_add_mod c.toNat 16
          simp only [show hexVal '0' = 0 from rfl]
          omega
        rw [hv, Char.ofNat_toNat]
      rw [parseStringBody.eq_def]
      simp [hhex, ih]
    · rw [escapeChar, if_neg h1, if_neg h2, if_neg h3, if_neg h4, if_neg h5, if_neg h6,
        parseStringBody.eq_def]
      simp [h1, h2, h6, ih]

theorem digitChar_isDigit (k : Nat) : (digitChar k).isDigit = true := by
  unfold digitChar
  split <;> decide

theorem digitChar_toNat (k : Nat) (h : k ≤ 9) : (digitChar k).toNat - 48 = k := by
  interval_cases k <;> decide

theorem digitChar_pos_ne_zero (k : Nat) (h1 : 1 ≤ k) (h2 : k ≤ 9) : ¬ digitChar k = '0' := by
  interval_cases k <;> decide

theorem natDigitsAux_zero (f : Nat) : natDigitsAux f 0 = [] := by
  cases f <;> rfl

theorem natDigitsAux_step (f n : Nat) (hf : 0 < f) (hn : 0 < n) :
    natDigitsAux f n = natDigitsAux (f - 1) (n / 10) ++ [digitChar (n % 10)] := by
  cases f with
  | zero => omega
  | succ f =>
    cases n with
    | zero => omega
    | succ n => rfl

theorem natDigitsAux_congr (f g n : Nat) (hf : n ≤ f) (hg : n ≤ g) :
    natDigitsAux f n = natDigitsAux g n := by
  induction n using Nat.strong_induction_on generalizing f g with
  | _ n ih =>
    cases n with
    | zero => rw [natDigitsAux_zero, natDigitsAux_zero]
    | succ n =>
      rw [natDigitsAux_step f (n + 1) (by omega) (by omega),
        natDigitsAux_step g (n + 1) (by omega) (by omega)]
      have hd : (n + 1) / 10 < n + 1 := Nat.div_lt_self (by omega) (by omega)
      rw [ih ((n + 1) / 10) hd (f - 1) (g - 1) (by omega) (by omega)]

theorem natDigits_three (n : Nat) (h1 : 100 ≤ n) (h2 : n ≤ 999) :
    natDigits n = [digitChar (n / 100), digitChar (n / 10 % 10), digitChar (n % 10)] := by
  have e1 : natDigits n = natDigitsAux n n := rfl
  rw [e1, natDigitsAux_step n n (by omega) (by omega)]
  rw [natDigitsAux_congr (n - 1) (n / 10) (n / 10) (by omega) (by omega)]
  rw [natDigitsAux_step (n / 10) (n / 10) (by omega) (by omega)]
  rw [natDigitsAux_congr (n / 10 - 1) (n / 10 / 10) (n / 10 / 10) (by omega) (by omega)]
  rw [Nat.div_div_eq_div_mul]
  rw [natDigitsAux_step (n / 100) (n / 100) (by omega) (by omega)]
  have hz : n / 100 / 10 = 0 := by omega
  rw [hz, natDigitsAux_zero]
  have hm : n / 100 % 10 = n / 100 := Nat.mod_eq_of_lt (by omega)
  rw [hm]
  simp [Nat.div_div_eq_div_mul]

theorem digitChar_ne_dash (k : Nat) : ¬ digitChar k = '-' := by
  unfold digitChar
  split <;> decide

theorem digitChar_ne_specials (k : Nat) :
    wsChar (digitChar k) = false ∧ ¬ digitChar k = '"' ∧ ¬ digitChar k = '\x7b' ∧
    ¬ digitChar k = '[' ∧ ¬ digitChar k = 't' ∧ ¬ digitChar k = 'f' ∧
    ¬ digitChar k = 'n' := by
  unfold digitChar
  split <;> exact ⟨by decide, by decide, by decide, by decide, by decide, by decide, by decide⟩

theorem skipWs_cons (c : Char) (cs : List Char) (h : wsChar c = false) :
    skipWs (c :: cs) = c :: cs := by
  simp [skipWs, List.dropWhile_cons, h]

theorem parseDigitsAcc_digit (acc k : Nat) (hk : k ≤ 9) (rest : List Char) :
    parseDigitsAcc acc (digitChar k :: rest) = parseDigitsAcc (acc * 10 + k) rest := by
  rw [parseDigitsAcc.eq_def]
  simp [digitChar_isDigit, digitChar_toNat k hk]

theorem parseDigitsAcc_stop (acc : Nat) (c : Char) (h : c.isDigit = false) (rest : List Char) :
    parseDigitsAcc acc (c :: rest) = (acc, c :: rest) := by
  rw [parseDigitsAcc.eq_def]
  simp [h]

theorem parseIntNum_threeDigits (n : Nat) (h1 : 100 ≤ n) (h2 : n ≤ 999) (tail : List Char) :
    parseIntNum (natDigits n ++ ',' :: tail) = some ((n : Int), ',' :: tail) := by
  rw [natDigits_three n h1 h2]
  simp only [List.cons_append, List.nil_append, parseIntNum.eq_def]
  simp only [if_neg (digitChar_ne_dash (n / 100)), parseUInt.eq_def]
  rw [if_pos (digitChar_isDigit (n / 100))]
  rw [if_neg (by simp [digitChar_pos_ne_zero (n / 100) (by omega) (by omega)])]
  rw [digitChar_toNat (n / 100) (by omega)]
  rw [parseDigitsAcc_digit _ _ (by omega), parseDigitsAcc_digit _ _ (by omega)]
  rw [parseDigitsAcc_stop _ ',' (by decide)]
  have harith : (n / 100 * 10 + n / 10 % 10) * 10 + n % 10 = n := by omega
  rw [harith]
  simp

theorem parseValue_status (n : Nat) (h1 : 100 ≤ n) (h2 : n ≤ 999) (f : Nat) (tail : List Char) :
    parseValue (f + 1) (natDigits n ++ ',' :: tail) = some (JValue.num (n : Int), ',' :: tail) := by
  have hh := digitChar_ne_specials (n / 100)
  have hn := parseIntNum_threeDigits n h1 h2 tail
  rw [natDigits_three n h1 h2] at hn ⊢
  simp only [List.cons_append, List.nil_append] at hn ⊢
  simp only [parseValue.eq_def]
  rw [skipWs_cons _ _ hh.1]
  simp only [if_neg hh.2.1, if_neg hh.2.2.1, if_neg hh.2.2.2.1, if_neg hh.2.2.2.2.1,
    if_neg hh.2.2.2.2.2.1, if_neg hh.2.2.2.2.2.2]
  rw [hn]

theorem parseValue_string (f : Nat) (l : List Char) (rest : List Char) :
    parseValue (f + 1) ('"' :: (escapeList l ++ '"' :: rest))
      = some (JValue.str (String.mk l), rest) := by
  simp only [parseValue.eq_def]
  rw [skipWs_cons _ _ (by decide)]
  simp [parseStringBody_escapeList]

theorem parseMembers_succ (g : Nat) (cs : List Char) :
    parseMembers (g + 1) cs
      = match skipWs cs with
        | '"' :: rest =>
          match parseStringBody rest with
          | none => none
          | some (k, r1) =>
            match skipWs r1 with
            | ':' :: r2 =>
              match parseValue g r2 with
              | none => none
              | some (v, r3) =>
                match skipWs r3 with
                | ',' :: r4 =>
                  match parseMembers g r4 with
                  | none => none
                  | some (ms, r5) => some ((String.mk k, v) :: ms, r5)
                | '\x7d' :: r4 => some ([(String.mk k, v)], r4)
                | _ => none
            | _ => none
        | _ => none := rfl

/-- Characters of one serialized header member: quoted escaped key, colon,
quoted escaped value. -/
def memberChars (kv : String × String) : List Char :=
  '"' :: (escapeList kv.1.data ++ '"' :: ':' :: '"' :: (escapeList kv.2.data ++ ['"']))

/-- Characters of the comma-separated serialized header members. -/
def membersChars : List (String × String) → List Char
  | [] => []
  | [kv] => memberChars kv
  | kv :: tl => memberChars kv ++ ',' :: membersChars tl

theorem string_mk_data (s : String) : String.mk s.data = s := rfl

theorem memberChars_append (kv : String × String) (X : List Char) :
    memberChars kv ++ X
      = '"' :: (escapeList kv.1.data ++ '"' :: ':' :: '"' :: (escapeList kv.2.data ++ '"' :: X)) := by
  simp [memberChars]

theorem parseMembers_headers (hs : List (String × String)) :
    ∀ f rest, hs ≠ [] → hs.length + 1 ≤ f →
    parseMembers f (membersChars hs ++ '\x7d' :: rest)
      = some (hs.map fun kv => (kv.1, JValue.str kv.2), rest) := by
  induction hs with
  | nil => intro f rest hne; exact absurd rfl hne
  | cons kv tl ih =>
    intro f rest _ hf
    cases f with
    | zero => omega
    | succ g =>
      cases g with
      | zero => simp at hf
      | succ g2 =>
        cases tl with
        | nil =>
          rw [show membersChars [kv] = memberChars kv from rfl, memberChars_append]
          rw [parseMembers_succ]
          rw [skipWs_cons _ _ (by decide)]
          simp only [parseStringBody_escapeList]
          rw [skipWs_cons _ _ (by decide)]
          have hv := parseValue_string g2 kv.2.data ('\x7d' :: rest)
          simp only [hv]
          rw [skipWs_cons _ _ (by decide)]
          simp [string_mk_data]
        | cons kv2 tl2 =>
          rw [show membersChars (kv :: kv2 :: tl2)
            = memberChars kv ++ ',' :: membersChars (kv2 :: tl2) from rfl]
          rw [List.append_assoc, memberChars_append]
          rw [parseMembers_succ]
          rw [skipWs_cons _ _ (by decide)]
          simp only [parseStringBody_escapeList]
          rw [skipWs_cons _ _ (by decide)]
          have hv := parseValue_string g2 kv.2.data
            (',' :: (membersChars (kv2 :: tl2) ++ '\x7d' :: rest))
          simp only [List.cons_append] at hv ⊢
          simp only [hv]
          rw [skipWs_cons _ _ (by decide)]
          have hrec := ih (g2 + 1) rest (by simp) (by simp at hf ⊢; omega)
          simp only [hrec]
          simp [string_mk_data]

theorem parseMembersStart_close (g : Nat) (rest : List Char) :
    parseMembersStart (g + 1) ('\x7d' :: rest) = some ([], rest) := rfl

theorem parseMembersStart_open (g : Nat) (T : List Char) :
    parseMembersStart (g + 1) ('"' :: T) = parseMembers g ('"' :: T) := rfl

theorem parseValue_obj (g : Nat) (cs : List Char) :
    parseValue (g + 1) ('\x7b' :: cs)
      = match parseMembersStart g cs with
        | none => none
        | some (ms, r) => some (JValue.obj ms, r) := rfl

theorem membersChars_cons_head (kv : String × String) (tl : List (String × String))
    (X : List Char) :
    ∃ T, membersChars (kv :: tl) ++ X = '"' :: T := by
  cases tl with
  | nil => exact ⟨_, memberChars_append kv X⟩
  | cons kv2 tl2 =>
    exact ⟨_, by rw [show membersChars (kv :: kv2 :: tl2)
      = memberChars kv ++ ',' :: membersChars (kv2 :: tl2) from rfl,
      List.append_assoc, memberChars_append]⟩

theorem parseValue_headersObj (hs : List (String × String)) (f : Nat) (rest : List Char)
    (hf : hs.length + 3 ≤ f) :
    parseValue f ('\x7b' :: (membersChars hs ++ '\x7d' :: rest))
      = some (JValue.obj (hs.map fun kv => (kv.1, JValue.str kv.2)), rest) := by
  cases f with
  | zero => omega
  | succ g =>
    rw [parseValue_obj]
    cases g with
    | zero => omega
    | succ g2 =>
      cases hs with
      | nil =>
        rw [show membersChars [] = [] from rfl, List.nil_append, parseMembersStart_close]
        rfl
      | cons kv tl =>
        obtain ⟨T, hT⟩ := membersChars_cons_head kv tl ('\x7d' :: rest)
        rw [hT, parseMembersStart_open, ← hT]
        have hm := parseMembers_headers (kv :: tl) g2 rest (by simp) (by simp at hf ⊢; omega)
        simp only [hm]

/-- The canonical JSON serialization of a render response, exactly as Go
encoding/json marshals the ssr.Response struct: an object with the keys
status, headers and body in struct order, no whitespace, headers as an
object of string members in map order, strings escaped with the standard
escapes. Spelled as one character list so the parser lemmas can traverse
it. -/
def serializeResponse (r : Response) : String :=
  String.mk ('\x7b' :: '"' :: escapeList "status".data ++ '"' :: ':' ::
    (intRepr r.status).data ++ ',' :: '"' :: escapeList "headers".data ++ '"' :: ':' ::
    '\x7b' :: membersChars r.headers ++ '\x7d' :: ',' :: '"' ::
    escapeList "body".data ++ '"' :: ':' :: '"' ::
    escapeList r.body.data ++ ['"', '\x7d'])

theorem string_data_mk (l : List Char) : (String.mk l).data = l := rfl

example : serializeResponse ⟨200, [("Content-Type", "text/html")], "<h1>world</h1>"⟩
    = "\x7b\"status\":200,\"headers\":\x7b\"Content-Type\":\"text/html\"\x7d,\"body\":\"<h1>world</h1>\"\x7d" := rfl

theorem intRepr_data_pos (i : Int) (h : 0 < i) : (intRepr i).data = natDigits i.natAbs := by
  rw [intRepr, if_neg (by omega)]
  rw [natRepr, if_neg (by omega)]

theorem skipWs_quote (cs : List Char) : skipWs ('"' :: cs) = '"' :: cs :=
  skipWs_cons _ _ (by decide)

theorem skipWs_comma (cs : List Char) : skipWs (',' :: cs) = ',' :: cs :=
  skipWs_cons _ _ (by decide)

theorem skipWs_colon (cs : List Char) : skipWs (':' :: cs) = ':' :: cs :=
  skipWs_cons _ _ (by decide)

theorem skipWs_closeBrace (cs : List Char) : skipWs ('\x7d' :: cs) = '\x7d' :: cs :=
  skipWs_cons _ _ (by decide)

theorem parseValue_response (r : Response) (f : Nat)
    (h1 : 100 ≤ r.status) (h2 : r.status ≤ 999)
    (hf : r.headers.length + 9 ≤ f) :
    parseValue f (serializeResponse r).data
      = some (JValue.obj [("status", JValue.num r.status),
          ("headers", JValue.obj (r.headers.map fun kv => (kv.1, JValue.str kv.2))),
          ("body", JValue.str r.body)], []) := by
  obtain ⟨e2, rfl⟩ : ∃ e2, f = e2 + 7 := ⟨f - 7, by omega⟩
  rw [serializeResponse, string_data_mk]
  simp only [List.cons_append, List.append_assoc]
  have hnum : (intRepr r.status).data = natDigits r.status.natAbs :=
    intRepr_data_pos r.status (by omega)
  rw [hnum]
  have hst : ∀ g tail, parseValue (g + 1) (natDigits r.status.natAbs ++ ',' :: tail)
      = some (JValue.num ((r.status.natAbs : Nat) : Int), ',' :: tail) :=
    fun g tail => parseValue_status r.status.natAbs (by omega) (by omega) g tail
  have hho : ∀ rest, parseValue (e2 + 3) ('\x7b' :: (membersChars r.headers ++ '\x7d' :: rest))
      = some (JValue.obj (r.headers.map fun kv => (kv.1, JValue.str kv.2)), rest) :=
    fun rest => parseValue_headersObj r.headers (e2 + 3) rest (by omega)
  rw [show (escapeList r.body.data ++ ['"', '\x7d'] : List Char)
    = escapeList r.body.data ++ '"' :: ['\x7d'] from rfl]
  simp only [parseValue_obj, parseMembersStart_open, parseMembers_succ, skipWs_quote,
    skipWs_comma, skipWs_colon, skipWs_closeBrace, parseStringBody_escapeList, hst, hho,
    parseValue_string, string_mk_data]
  have hb : ((r.status.natAbs : Nat) : Int) = r.status := by omega
  simp [hb]

theorem memberChars_length (kv : String × String) : 1 ≤ (memberChars kv).length := by
  simp [memberChars]

theorem membersChars_length (hs : List (String × String)) :
    hs.length ≤ (membersChars hs).length := by
  induction hs with
  | nil => simp [membersChars]
  | cons kv tl ih =>
    cases tl with
    | nil => simpa [membersChars] using memberChars_length kv
    | cons kv2 tl2 =>
      rw [show membersChars (kv :: kv2 :: tl2)
        = memberChars kv ++ ',' :: membersChars (kv2 :: tl2) from rfl]
      have h1 := memberChars_length kv
      simp only [List.length_append, List.length_cons] at ih ⊢
      omega

theorem serializeResponse_length (r : Response) :
    r.headers.length + 5 ≤ (serializeResponse r).data.length := by
  rw [serializeResponse, string_data_mk]
  have h := membersChars_length r.headers
  simp only [List.cons_append, List.append_assoc, List.length_append, List.length_cons]
  omega

theorem parseJson_serialize (r : Response) (h1 : 100 ≤ r.status) (h2 : r.status ≤ 999) :
    parseJson (serializeResponse r)
      = some (JValue.obj [("status", JValue.num r.status),
          ("headers", JValue.obj (r.headers.map fun kv => (kv.1, JValue.str kv.2))),
          ("body", JValue.str r.body)]) := by
  rw [parseJson]
  have hlen := serializeResponse_length r
  rw [parseValue_response r _ h1 h2 (by omega)]
  rfl

theorem decodeHeaders_map (ms : List (String × String)) :
    ∀ acc, decodeHeaders acc (ms.map fun kv => (kv.1, JValue.str kv.2))
      = some (ms.foldl (fun a kv => setAssoc a kv.1 kv.2) acc) := by
  induction ms with
  | nil => intro acc; rfl
  | cons kv tl ih => intro acc; simp [decodeHeaders, ih]

theorem setAssoc_not_mem (acc : List (String × String)) (k v : String)
    (h : k ∉ acc.map Prod.fst) : setAssoc acc k v = acc ++ [(k, v)] := by
  induction acc with
  | nil => rfl
  | cons kv0 tl ih =>
    simp only [List.map_cons, List.mem_cons] at h
    push_neg at h
    rw [setAssoc, if_neg (fun he => h.1 he.symm)]
    rw [ih h.2]
    simp

theorem foldl_setAssoc_nodup (hs : List (String × String)) :
    ∀ acc, ((acc ++ hs).map Prod.fst).Nodup →
    hs.foldl (fun a kv => setAssoc a kv.1 kv.2) acc = acc ++ hs := by
  induction hs with
  | nil => intro acc _; simp
  | cons kv tl ih =>
    intro acc hnd
    have hmem : kv.1 ∉ acc.map Prod.fst := by
      simp only [List.map_append, List.nodup_append] at hnd
      intro hin
      exact hnd.2.2 hin (by simp)
    rw [List.foldl_cons, setAssoc_not_mem acc kv.1 kv.2 hmem]
    rw [ih (acc ++ [(kv.1, kv.2)]) (by simpa [List.append_assoc] using hnd)]
    simp

theorem unmarshal_serialize (r : Response) (h1 : 100 ≤ r.status) (h2 : r.status ≤ 999)
    (h3 : (r.headers.map Prod.fst).Nodup) :
    unmarshalResponse (serializeResponse r) = some r := by
  rw [unmarshalResponse]
  simp only [parseJson_serialize r h1 h2]
  rw [show decodeResponseFields ⟨0, [], ""⟩
      [("status", JValue.num r.status),
       ("headers", JValue.obj (r.headers.map fun kv => (kv.1, JValue.str kv.2))),
       ("body", JValue.str r.body)]
    = match decodeHeaders [] (r.headers.map fun kv => (kv.1, JValue.str kv.2)) with
      | none => none
      | some hs => decodeResponseFields ⟨r.status, hs, ""⟩ [("body", JValue.str r.body)]
    from rfl]
  rw [decodeHeaders_map r.headers []]
  rw [foldl_setAssoc_nodup r.headers [] (by simpa using h3)]
  rw [List.nil_append]
  rfl

/-- C3: for every render response with a status in 100..999 and unique
header keys (the invariant of a Go map), if the engine returns exactly the
JSON serialization of the response, Render succeeds and returns a response
with identical status, headers and body. -/
theorem render_roundtrip (fsys : String → Except String String)
    (route : String) (props : GoValue) (pb sc : String) (r : Response)
    (h1 : jsonMarshal props = Except.ok pb)
    (h2 : fsys "bud/view/_ssr.js" = Except.ok sc)
    (hs1 : 100 ≤ r.status) (hs2 : r.status ≤ 999)
    (hnd : (r.headers.map Prod.fst).Nodup) :
    renderer.Render ⟨fsys, fun _ _ => Except.ok (serializeResponse r)⟩ route props
      = Except.ok r := by
  have hrange : ¬ (r.status < 100 ∨ r.status > 999) := by omega
  simp [renderer.Render, h1, h2, unmarshal_serialize r hs1 hs2 hnd, hrange]

/-- C3, witness: the spec's concrete example — props with one name field and
an engine echoing the serialized 200/text-html/h1 response — yields exactly
that triple. -/
theorem render_roundtrip_witness :
    jsonMarshal (GoValue.obj [("name", GoValue.str "world")])
      = Except.ok "\x7b\"name\":\"world\"\x7d" ∧
    serializeResponse ⟨200, [("Content-Type", "text/html")], "<h1>world</h1>"⟩
      = "\x7b\"status\":200,\"headers\":\x7b\"Content-Type\":\"text/html\"\x7d,\"body\":\"<h1>world</h1>\"\x7d" ∧
    renderer.Render ⟨fun _ => Except.ok "var bud = 0",
        fun _ _ => Except.ok (serializeResponse
          ⟨200, [("Content-Type", "text/html")], "<h1>world</h1>"⟩)⟩
      "/" (GoValue.obj [("name", GoValue.str "world")])
      = Except.ok ⟨200, [("Content-Type", "text/html")], "<h1>world</h1>"⟩ := by
  refine ⟨rfl, rfl, ?_⟩
  exact render_roundtrip (fun _ => Except.ok "var bud = 0") "/"
    (GoValue.obj [("name", GoValue.str "world")]) "\x7b\"name\":\"world\"\x7d" "var bud = 0"
    ⟨200, [("Content-Type", "text/html")], "<h1>world</h1>"⟩ rfl rfl
    (by decide) (by decide) (by decide)
